import Mathlib

/-! Verification development for the `GeminiLiveClient` real-time session core
(`services/geminiLive.ts`) and its audio codec utilities.

Times (audio-engine clocks, chunk durations) are modelled as rationals,
audio sample values as rationals, and machine integers as `Int`/`Nat`.
Browser resources (audio contexts, nodes, promises) are modelled by their
presence plus the data the code reads from them (an audio context is
modelled by its `currentTime`).  Fallible external operations are modelled
with explicit failure oracles and `Except`, so that the `try`/`catch`
structure of the source is visible in the embedding.
-/

namespace GiantsMeeting

/-- Sender of a transcription item (`'user' | 'model'` in `types.ts`). -/
inductive Sender where
  | user
  | model
deriving DecidableEq, Repr

/-- Structure `TranscriptionItem` from `types.ts`. -/
structure TranscriptionItem where
  id : String
  text : String
  sender : Sender
  isFinal : Bool
deriving DecidableEq, Repr

/-- Field `inlineData` of a server content part: the optional base64 audio payload. -/
structure InlineData where
  data : Option String
deriving DecidableEq, Repr

/-- One part of a model turn; only `inlineData` is read by the client. -/
structure ContentPart where
  inlineData : Option InlineData
deriving DecidableEq, Repr

/-- Field `modelTurn` of a server message: an optional list of parts. -/
structure ModelTurn where
  parts : Option (List ContentPart)
deriving DecidableEq, Repr

/-- A transcription fragment (`inputTranscription` / `outputTranscription`). -/
structure TranscriptionFragment where
  text : String
deriving DecidableEq, Repr

/-- Shape of `serverContent` of a `LiveServerMessage`, restricted to the fields the
client reads. `turnComplete` is an optional boolean in the wire shape; an
absent field behaves as `false`. -/
structure ServerContent where
  modelTurn : Option ModelTurn
  outputTranscription : Option TranscriptionFragment
  inputTranscription : Option TranscriptionFragment
  turnComplete : Bool
deriving DecidableEq, Repr

/-- Shape of `LiveServerMessage` as read by `GeminiLiveClient.handleMessage`. -/
structure LiveServerMessage where
  serverContent : Option ServerContent
deriving DecidableEq, Repr

/-- The mutable private state of a `GeminiLiveClient` instance.  Resource
fields are modelled by their presence; the two audio contexts are modelled
by their `currentTime` value when present. -/
structure ClientState where
  sessionPromise : Bool
  inputAudioContext : Option ℚ
  outputAudioContext : Option ℚ
  outputGainNode : Bool
  inputSource : Bool
  processor : Bool
  audioStreamDestination : Bool
  nextStartTime : ℚ
  isActive : Bool
  videoInterval : Option ℕ
  connectionTimeoutId : Option ℕ
  currentInputTranscription : String
  currentOutputTranscription : String
deriving DecidableEq, Repr

/-- Observable effects of handling one inbound server message. -/
inductive MessageEffect where
  /-- `callbacks.onAudioData(audioBuffer)`, identified by the buffer's duration. -/
  | audioData (duration : ℚ)
  /-- `source.start(t)`: playback of the decoded chunk scheduled at time `t`. -/
  | scheduledStart (t : ℚ)
  /-- `console.error("Error decoding audio", err)` in the catch block. -/
  | logDecodeError
  /-- `callbacks.onTranscription(item)`. -/
  | transcription (item : TranscriptionItem)
deriving DecidableEq, Repr

/-- Model of `message.serverContent?.modelTurn?.parts?.[0]?.inlineData?.data`,
the optional-chained extraction of the inline audio payload, which only
ever looks at part `[0]`. -/
def extractAudio (m : LiveServerMessage) : Option String :=
  ((((m.serverContent.bind ServerContent.modelTurn).bind
      ModelTurn.parts).bind List.head?).bind
      ContentPart.inlineData).bind InlineData.data

/-- The audio branch of `handleMessage` (lines 177–206).  `decode` models
`base64ToUint8Array` plus `await decodeAudioData` and returns the decoded
buffer's duration, or `none` when decoding throws (caught and logged).
The guard `base64Audio && this.outputAudioContext && this.outputGainNode`
requires a non-empty payload string (JS truthiness) and both output
resources. On success the cursor is first advanced to
`max(nextStartTime, currentTime)`, `onAudioData` fires, playback is
scheduled at the advanced cursor, and the cursor then advances by the
chunk's duration. -/
def audioStep (decode : String → Option ℚ) (m : LiveServerMessage)
    (st : ClientState) : ClientState × List MessageEffect :=
  match extractAudio m, st.outputAudioContext, st.outputGainNode with
  | some s, some now, true =>
    if s = "" then (st, [])
    else
      match decode s with
      | none => (st, [MessageEffect.logDecodeError])
      | some dur =>
        let start := max st.nextStartTime now
        ({ st with nextStartTime := start + dur },
         [MessageEffect.audioData dur, MessageEffect.scheduledStart start])
  | _, _, _ => (st, [])

/-- The transcription-accumulation branch of `handleMessage`
(lines 209–215): an output fragment is appended to the agent-side
accumulator; otherwise an input fragment is appended to the user-side
accumulator. -/
def appendTranscriptions (m : LiveServerMessage) (st : ClientState) : ClientState :=
  match m.serverContent with
  | none => st
  | some sc =>
    match sc.outputTranscription with
    | some t =>
      { st with currentOutputTranscription := st.currentOutputTranscription ++ t.text }
    | none =>
      match sc.inputTranscription with
      | some t =>
        { st with currentInputTranscription := st.currentInputTranscription ++ t.text }
      | none => st

/-- JS `String.prototype.trim`: drop leading and trailing whitespace.
Defined on the character list so that it is kernel-computable. -/
def jsTrim (s : String) : String :=
  ⟨((s.data.dropWhile Char.isWhitespace).reverse.dropWhile
      Char.isWhitespace).reverse⟩

/-- The turn-completion branch of `handleMessage` (lines 217–237):
on `turnComplete`, each accumulator whose trimmed content is non-empty is
flushed as one final `TranscriptionItem` (user first, then model) and
reset to the empty string. `timestamp` models `Date.now()`. -/
def flushTurn (timestamp : ℕ) (turnComplete : Bool) (st : ClientState) :
    ClientState × List MessageEffect :=
  if turnComplete then
    let userPart :=
      if jsTrim st.currentInputTranscription = "" then
        (st, ([] : List MessageEffect))
      else
        ({ st with currentInputTranscription := "" },
         [MessageEffect.transcription
            ⟨toString timestamp ++ "-user", st.currentInputTranscription,
             Sender.user, true⟩])
    let st1 := userPart.1
    let modelPart :=
      if jsTrim st1.currentOutputTranscription = "" then
        (st1, ([] : List MessageEffect))
      else
        ({ st1 with currentOutputTranscription := "" },
         [MessageEffect.transcription
            ⟨toString timestamp ++ "-model", st1.currentOutputTranscription,
             Sender.model, true⟩])
    (modelPart.1, userPart.2 ++ modelPart.2)
  else (st, [])

/-- Whether a message carries the turn-completion signal. -/
def turnCompleteOf (m : LiveServerMessage) : Bool :=
  match m.serverContent with
  | none => false
  | some sc => sc.turnComplete

/-- Model of `GeminiLiveClient.handleMessage` (lines 176–238): audio branch, then
transcription accumulation, then turn flush, with the effects emitted in
that order. -/
def handleMessage (decode : String → Option ℚ) (timestamp : ℕ)
    (m : LiveServerMessage) (st : ClientState) :
    ClientState × List MessageEffect :=
  let a := audioStep decode m st
  let st1 := appendTranscriptions m a.1
  let f := flushTurn timestamp (turnCompleteOf m) st1
  (f.1, a.2 ++ f.2)

/-- The playback start times scheduled among a list of effects. -/
def scheduledStarts (effs : List MessageEffect) : List ℚ :=
  effs.filterMap fun e =>
    match e with
    | MessageEffect.scheduledStart t => some t
    | _ => none

/-- The `onAudioData` buffer durations among a list of effects. -/
def audioDataEffects (effs : List MessageEffect) : List ℚ :=
  effs.filterMap fun e =>
    match e with
    | MessageEffect.audioData d => some d
    | _ => none

/-- The transcription items emitted among a list of effects, in order. -/
def transcriptionEffects (effs : List MessageEffect) : List TranscriptionItem :=
  effs.filterMap fun e =>
    match e with
    | MessageEffect.transcription i => some i
    | _ => none

/-- The accumulator values at the moment `turnComplete` is checked:
after the audio branch and the fragment-append branch have run. -/
def accumsAtFlush (decode : String → Option ℚ) (m : LiveServerMessage)
    (st : ClientState) : String × String :=
  let st1 := appendTranscriptions m (audioStep decode m st).1
  (st1.currentInputTranscription, st1.currentOutputTranscription)

/-- Failure oracle for the best-effort operations of `cleanup`: each flag
says whether the corresponding browser call throws when attempted. -/
structure CleanupFailures where
  inputSourceDisconnectFails : Bool
  processorDisconnectFails : Bool
  gainDisconnectFails : Bool
  inputContextCloseFails : Bool
  outputContextCloseFails : Bool
deriving DecidableEq, Repr

/-- Observable side effects of `cleanup`: each constructor records that the
corresponding browser call was made. -/
inductive CleanupEffect where
  | clearConnectionTimeout (id : ℕ)
  | clearVideoInterval (id : ℕ)
  | disconnectInputSource
  | disconnectProcessor
  | disconnectGainNode
  | closeInputContext
  | closeOutputContext
  | requestSessionClose
deriving DecidableEq, Repr

/-- A fallible browser call: throws exactly when the oracle flag is set. -/
def throwingOp (fails : Bool) : Except String Unit :=
  if fails then Except.error "DOMException" else Except.ok ()

/-- Model of `try { op } catch (e) {}`: any thrown exception is swallowed. -/
def tryIgnore (op : Except String Unit) : Except String Unit :=
  match op with
  | Except.ok _ => Except.ok ()
  | Except.error _ => Except.ok ()

/-- One guarded best-effort call of `cleanup`:
`if (resource) { try { call(); } catch (e) {} }`.  Returns the effect of
the call when the resource is present; a throw of the call is swallowed. -/
def bestEffort (present : Bool) (fails : Bool) (eff : CleanupEffect) :
    Except String (List CleanupEffect) :=
  if present then do
    tryIgnore (throwingOp fails)
    pure [eff]
  else pure []

/-- The client state after `cleanup` (lines 315–321): every held reference
nulled out; `isActive`, `nextStartTime` and the transcription accumulators
are not touched by `cleanup`. -/
def cleanedState (st : ClientState) : ClientState :=
  { st with
      connectionTimeoutId := none
      videoInterval := none
      inputSource := false
      processor := false
      inputAudioContext := none
      outputAudioContext := none
      outputGainNode := false
      sessionPromise := false
      audioStreamDestination := false }

/-- The browser calls `cleanup` makes, in source order. -/
def cleanupEffects (st : ClientState) : List CleanupEffect :=
  (match st.connectionTimeoutId with
   | some i => [CleanupEffect.clearConnectionTimeout i]
   | none => [])
  ++ (match st.videoInterval with
      | some i => [CleanupEffect.clearVideoInterval i]
      | none => [])
  ++ (if st.inputSource then [CleanupEffect.disconnectInputSource] else [])
  ++ (if st.processor then [CleanupEffect.disconnectProcessor] else [])
  ++ (if st.outputGainNode then [CleanupEffect.disconnectGainNode] else [])
  ++ (if st.inputAudioContext.isSome then [CleanupEffect.closeInputContext] else [])
  ++ (if st.outputAudioContext.isSome then [CleanupEffect.closeOutputContext] else [])
  ++ (if st.sessionPromise then [CleanupEffect.requestSessionClose] else [])

/-- Model of `GeminiLiveClient.cleanup` (lines 288–322): cancel the establishment
timeout, stop video streaming, best-effort disconnect the input source, the
processor and the gain node, best-effort close both audio contexts,
asynchronously request closure of the session handle when one is held, and
null out every held reference.  Runs in `Except` so that an uncaught throw
of one of the wrapped operations would be visible; every fallible call is
wrapped in `tryIgnore`. -/
def cleanup (st : ClientState) (f : CleanupFailures) :
    Except String (ClientState × List CleanupEffect) := do
  let e0 : List CleanupEffect :=
    match st.connectionTimeoutId with
    | some i => [CleanupEffect.clearConnectionTimeout i]
    | none => []
  let e1 : List CleanupEffect :=
    match st.videoInterval with
    | some i => [CleanupEffect.clearVideoInterval i]
    | none => []
  let e2 ← bestEffort st.inputSource f.inputSourceDisconnectFails
    CleanupEffect.disconnectInputSource
  let e3 ← bestEffort st.processor f.processorDisconnectFails
    CleanupEffect.disconnectProcessor
  let e4 ← bestEffort st.outputGainNode f.gainDisconnectFails
    CleanupEffect.disconnectGainNode
  let e5 ← bestEffort st.inputAudioContext.isSome f.inputContextCloseFails
    CleanupEffect.closeInputContext
  let e6 ← bestEffort st.outputAudioContext.isSome f.outputContextCloseFails
    CleanupEffect.closeOutputContext
  let e7 : List CleanupEffect :=
    if st.sessionPromise then [CleanupEffect.requestSessionClose] else []
  pure (cleanedState st, e0 ++ e1 ++ e2 ++ e3 ++ e4 ++ e5 ++ e6 ++ e7)

/-- Model of `GeminiLiveClient.disconnect` (lines 283–286): mark the session
inactive, then run the full teardown. -/
def disconnect (st : ClientState) (f : CleanupFailures) :
    Except String (ClientState × List CleanupEffect) :=
  cleanup { st with isActive := false } f

/-- The error message the 15-second establishment timer rejects with
(line 67). -/
def timeoutErrorMessage : String :=
  "Connection timed out. Check your network or API Key."

/-- The establishment timeout duration in milliseconds (line 68). -/
def connectionTimeoutMs : ℕ := 15000

/-- The `.catch` handler installed on the raced session promise
(lines 107–111), as it runs when the 15-second timer wins the race: the
client is cleaned up and `onError` fires with the timer's rejection
message.  Returns the post-cleanup state, the teardown effects and the
message passed to `onError`. -/
def handleEstablishmentTimeout (st : ClientState) (f : CleanupFailures) :
    Except String (ClientState × List CleanupEffect × String) := do
  let r ← cleanup st f
  pure (r.1, r.2, timeoutErrorMessage)

/-- Structure `RampCommand` records one `gain.setTargetAtTime(target, startTime,
timeConstant)` call. -/
structure RampCommand where
  target : ℚ
  startTime : ℚ
  timeConstant : ℚ
deriving DecidableEq, Repr

/-- Model of `GeminiLiveClient.setVolume` (lines 124–129): when both the output gain
node and the output audio context exist, issue a smooth ramp of the gain
toward `volume` starting at the context's current time with time constant
0.05 s; otherwise do nothing. -/
def setVolume (st : ClientState) (volume : ℚ) : Option RampCommand :=
  match st.outputAudioContext, st.outputGainNode with
  | some now, true => some ⟨volume, now, 1 / 20⟩
  | _, _ => none

/-- Observable effects of `sendTextMessage`. -/
inductive TextSendEffect where
  /-- `session.send({clientContent: {turns: [{role: 'user', parts: [{text}]}], turnComplete: true}})`. -/
  | sent (text : String) (turnComplete : Bool)
  /-- `console.warn("Session does not support text sending")`. -/
  | warnNoSupport
  /-- `console.error("Failed to send text", e)` in the `.catch`. -/
  | logSendFailure
deriving DecidableEq, Repr

/-- Model of `GeminiLiveClient.sendTextMessage` (lines 131–149): guarded by
`this.isActive && this.sessionPromise`; inside the guard the text is sent
as one complete user turn when the resolved session supports `send`, a
warning is logged when it does not, and a failure of the send is caught
and logged.  Outside the guard nothing happens at all.  `supportsSend`
models `session.send` being defined; `sendFails` models the send throwing
or the session promise rejecting. -/
def sendTextMessage (st : ClientState) (supportsSend sendFails : Bool)
    (text : String) : Except String (List TextSendEffect) :=
  if st.isActive ∧ st.sessionPromise then
    if supportsSend then
      match throwingOp sendFails with
      | Except.ok _ => Except.ok [TextSendEffect.sent text true]
      | Except.error _ => Except.ok [TextSendEffect.logSendFailure]
    else Except.ok [TextSendEffect.warnNoSupport]
  else Except.ok []

/-- Modelled from the spec: the Audio Codec Utilities file
(`utils/audioUtils.ts`, not present in the sources; only its caller is).
Per §4.2, encoding clamps each float sample to [-1,1]. -/
def clampSample (x : ℚ) : ℚ := max (-1) (min 1 x)

/-- Modelled from the spec: each clamped sample is scaled by 32767 and
rounded to a 16-bit integer (§4.2). `round` is round-half-up, matching
`Math.round`. -/
def encodeSample (x : ℚ) : ℤ := round (clampSample x * 32767)

/-- Modelled from the spec: the two's-complement little-endian byte pair of
a 16-bit sample value.  Bytes are numbers in [0, 255], represented in `ℤ`. -/
def sampleToLEBytes (n : ℤ) : ℤ × ℤ := (n % 65536 % 256, n % 65536 / 256)

/-- Modelled from the spec: `createPcmBlob`'s payload — the 16-bit
little-endian PCM byte stream of an encoded float sample block (§4.2).
The base64 layer round-trips byte-for-byte (§4.2) and is elided. -/
def createPcmBytes (samples : List ℚ) : List ℤ :=
  samples.flatMap fun x =>
    [(sampleToLEBytes (encodeSample x)).1, (sampleToLEBytes (encodeSample x)).2]

/-- Modelled from the spec: reassemble a signed 16-bit sample from its
little-endian byte pair. -/
def int16FromLEBytes (lo hi : ℤ) : ℤ :=
  let u := lo + 256 * hi
  if u < 32768 then u else u - 65536

/-- Modelled from the spec: `decodeAudioData`'s sample reconstruction —
each 16-bit little-endian sample is divided by 32768, and a trailing
partial (single) byte is truncated (§4.2). -/
def decodePcmBytes : List ℤ → List ℚ
  | lo :: hi :: rest => (int16FromLEBytes lo hi : ℚ) / 32768 :: decodePcmBytes rest
  | _ => []

/-- Timing context of one microphone frame's journey through the
`onaudioprocess` handler (lines 157–170): the activity flag and session
promise as read at handler entry, whether the asynchronous send fails,
and the activity flag as read inside the `.catch` at failure time. -/
structure MicFrameContext where
  isActiveAtCapture : Bool
  sessionPromiseExists : Bool
  sendFails : Bool
  isActiveAtFailure : Bool
deriving DecidableEq, Repr

/-- Observable effects of one `onaudioprocess` invocation. -/
inductive MicEffect where
  /-- `session.sendRealtimeInput({media: pcmBlob})` with the encoded frame. -/
  | transmitted (pcmPayload : List ℤ)
  /-- `console.error("Error sending audio", err)` in the `.catch`. -/
  | logSendError
deriving DecidableEq, Repr

/-- The `onaudioprocess` handler (lines 157–170): it returns immediately
unless the activity flag is set and a session promise exists; only then is
the input block read and encoded via `createPcmBlob` and the send issued.
A send failure is caught — `.catch` — and logged only when the activity
flag is still set at failure time; after deactivation it is silently
ignored.  Runs in `Except` so an escaping exception would be visible. -/
def onAudioProcess (ctx : MicFrameContext) (frame : List ℚ) :
    Except String (List MicEffect) :=
  if ctx.isActiveAtCapture ∧ ctx.sessionPromiseExists then
    match throwingOp ctx.sendFails with
    | Except.ok _ => Except.ok [MicEffect.transmitted (createPcmBytes frame)]
    | Except.error _ =>
      Except.ok (if ctx.isActiveAtFailure then [MicEffect.logSendError] else [])
  else Except.ok []

/-- Program counter of one `connect()` invocation, split at its suspension
points: `entry` is the synchronous prefix up to and including the
`if (this.isActive) return;` guard (line 36) and audio-context creation;
after it the call suspends awaiting `getUserMedia` (line 60);
`awaitingPermissions` resumes at line 62, sets `isActive = true` and calls
`this.ai.live.connect` — one establishment attempt; `finished` is past the
modelled region (or returned early at the guard). -/
inductive ConnectPhase where
  | entry
  | awaitingPermissions
  | finished
deriving DecidableEq, Repr

/-- Two interleaved invocations of `connect()` sharing the client's
`isActive` flag; `establishAttempts` counts calls of `ai.live.connect`. -/
structure ConnectSystem where
  isActive : Bool
  establishAttempts : ℕ
  task0 : ConnectPhase
  task1 : ConnectPhase
deriving DecidableEq, Repr

/-- Run one atomic block of a single `connect()` invocation. -/
def connectPhaseStep (active : Bool) (attempts : ℕ) (p : ConnectPhase) :
    Bool × ℕ × ConnectPhase :=
  match p with
  | ConnectPhase.entry =>
    if active then (active, attempts, ConnectPhase.finished)
    else (active, attempts, ConnectPhase.awaitingPermissions)
  | ConnectPhase.awaitingPermissions =>
    (true, attempts + 1, ConnectPhase.finished)
  | ConnectPhase.finished => (active, attempts, ConnectPhase.finished)

/-- Scheduler step: run one atomic block of the chosen invocation
(`false` = first call, `true` = second call). -/
def connectStep (s : ConnectSystem) (pickSecond : Bool) : ConnectSystem :=
  if pickSecond then
    let r := connectPhaseStep s.isActive s.establishAttempts s.task1
    { s with isActive := r.1, establishAttempts := r.2.1, task1 := r.2.2 }
  else
    let r := connectPhaseStep s.isActive s.establishAttempts s.task0
    { s with isActive := r.1, establishAttempts := r.2.1, task0 := r.2.2 }

/-- Run a whole interleaving schedule of the two `connect()` invocations. -/
def runConnectSchedule (sched : List Bool) (s : ConnectSystem) : ConnectSystem :=
  sched.foldl connectStep s

/-- Invariant for the interleaved-`connect` system: the activity flag is
set, no establishment attempt has been made, and neither invocation sits
past the entry guard. -/
def ConnectInv (s : ConnectSystem) : Prop :=
  s.isActive = true ∧ s.establishAttempts = 0 ∧
  s.task0 ≠ ConnectPhase.awaitingPermissions ∧
  s.task1 ≠ ConnectPhase.awaitingPermissions

/-- A freshly constructed client: the initial field values of the class. -/
def idleClient : ClientState :=
  { sessionPromise := false, inputAudioContext := none, outputAudioContext := none,
    outputGainNode := false, inputSource := false, processor := false,
    audioStreamDestination := false, nextStartTime := 0, isActive := false,
    videoInterval := none, connectionTimeoutId := none,
    currentInputTranscription := "", currentOutputTranscription := "" }

/-- A client with an open session and every resource present. -/
def openClient : ClientState :=
  { sessionPromise := true, inputAudioContext := some 0, outputAudioContext := some 2,
    outputGainNode := true, inputSource := true, processor := true,
    audioStreamDestination := true, nextStartTime := 1, isActive := true,
    videoInterval := some 7, connectionTimeoutId := some 3,
    currentInputTranscription := "", currentOutputTranscription := "" }

/-- Failure oracle under which no wrapped browser call throws. -/
def noFailures : CleanupFailures := ⟨false, false, false, false, false⟩

/-- Failure oracle under which every wrapped browser call throws. -/
def allFailures : CleanupFailures := ⟨true, true, true, true, true⟩

/-- A message whose model turn carries one inline audio payload and
nothing else. -/
def audioMsg (s : String) : LiveServerMessage :=
  ⟨some ⟨some ⟨some [⟨some ⟨some s⟩⟩]⟩, none, none, false⟩⟩

/-- A message carrying only the turn-completion signal. -/
def turnCompleteMsg : LiveServerMessage :=
  ⟨some ⟨none, none, none, true⟩⟩

/-- A client whose user accumulator holds text and whose agent accumulator
holds only whitespace. -/
def accumClient : ClientState :=
  { idleClient with
      currentInputTranscription := "hi"
      currentOutputTranscription := " " }

/-- A message whose audio payload sits in the second part while the first
part has no inline data. -/
def secondPartAudioMsg (s : String) : LiveServerMessage :=
  ⟨some ⟨some ⟨some [⟨none⟩, ⟨some ⟨some s⟩⟩]⟩, none, none, false⟩⟩

/-! Helper lemmas -/

/-- Lemma: `try`/`catch` around a fallible call always returns normally. -/
lemma tryIgnore_throwingOp (b : Bool) : tryIgnore (throwingOp b) = pure () := by
  cases b <;> rfl

/-- A guarded best-effort call never throws and records exactly the calls
made. -/
lemma bestEffort_eq (p b : Bool) (e : CleanupEffect) :
    bestEffort p b e = pure (if p then [e] else []) := by
  cases p <;> cases b <;> rfl

/-- Lemma: `cleanup` never throws: whatever subset of the wrapped browser calls
fails, it returns the fully nulled state and the record of calls made,
independently of the failure oracle. -/
lemma cleanup_eq (st : ClientState) (f : CleanupFailures) :
    cleanup st f = Except.ok (cleanedState st, cleanupEffects st) := by
  simp [cleanup, cleanupEffects, bestEffort_eq]
  rfl

/-- The audio branch emits no transcription items. -/
lemma audioStep_transcription_nil (decode : String → Option ℚ)
    (m : LiveServerMessage) (st : ClientState) :
    transcriptionEffects (audioStep decode m st).2 = [] := by
  obtain ⟨sp, iac, oac, ogn, is0, pr, asd, nst, ia, vi, cti, cit, cot⟩ := st
  unfold audioStep
  cases hx : extractAudio m <;> cases oac <;> cases ogn <;> try rfl
  rename_i s now
  by_cases hs : s = ""
  · simp [hs, transcriptionEffects]
  · cases hd : decode s <;> simp [hs, hd, transcriptionEffects]

/-- The audio branch only changes `nextStartTime`. -/
lemma audioStep_state (decode : String → Option ℚ)
    (m : LiveServerMessage) (st : ClientState) :
    (audioStep decode m st).1 =
      { st with nextStartTime := (audioStep decode m st).1.nextStartTime } := by
  obtain ⟨sp, iac, oac, ogn, is0, pr, asd, nst, ia, vi, cti, cit, cot⟩ := st
  unfold audioStep
  cases hx : extractAudio m <;> cases oac <;> cases ogn <;> try rfl
  rename_i s now
  by_cases hs : s = ""
  · simp [hs]
  · cases hd : decode s <;> simp [hs, hd]

/-- Appending transcription fragments only changes the two accumulators. -/
lemma appendTranscriptions_state (m : LiveServerMessage) (st : ClientState) :
    appendTranscriptions m st =
      { st with
          currentInputTranscription :=
            (appendTranscriptions m st).currentInputTranscription
          currentOutputTranscription :=
            (appendTranscriptions m st).currentOutputTranscription } := by
  cases hm : m.serverContent with
  | none => simp [appendTranscriptions, hm]
  | some sc =>
    simp only [appendTranscriptions, hm]
    cases ho : sc.outputTranscription with
    | some t => rfl
    | none => cases hi : sc.inputTranscription <;> rfl

/-- The turn flush only changes the two accumulators, and emits only
transcription items. -/
lemma flushTurn_state (ts : ℕ) (tc : Bool) (st : ClientState) :
    (flushTurn ts tc st).1 =
      { st with
          currentInputTranscription :=
            (flushTurn ts tc st).1.currentInputTranscription
          currentOutputTranscription :=
            (flushTurn ts tc st).1.currentOutputTranscription } ∧
    scheduledStarts (flushTurn ts tc st).2 = [] ∧
    audioDataEffects (flushTurn ts tc st).2 = [] := by
  cases tc with
  | false => exact ⟨rfl, rfl, rfl⟩
  | true =>
    by_cases h1 : jsTrim st.currentInputTranscription = "" <;>
      by_cases h2 : jsTrim st.currentOutputTranscription = "" <;>
        simp [flushTurn, h1, h2, scheduledStarts, audioDataEffects]

lemma appendTranscriptions_nextStartTime (m : LiveServerMessage)
    (st : ClientState) :
    (appendTranscriptions m st).nextStartTime = st.nextStartTime := by
  rw [appendTranscriptions_state m st]

lemma appendTranscriptions_outputAudioContext (m : LiveServerMessage)
    (st : ClientState) :
    (appendTranscriptions m st).outputAudioContext = st.outputAudioContext := by
  rw [appendTranscriptions_state m st]

lemma appendTranscriptions_outputGainNode (m : LiveServerMessage)
    (st : ClientState) :
    (appendTranscriptions m st).outputGainNode = st.outputGainNode := by
  rw [appendTranscriptions_state m st]

lemma flushTurn_nextStartTime (ts : ℕ) (tc : Bool) (st : ClientState) :
    (flushTurn ts tc st).1.nextStartTime = st.nextStartTime := by
  rw [(flushTurn_state ts tc st).1]

lemma flushTurn_outputAudioContext (ts : ℕ) (tc : Bool) (st : ClientState) :
    (flushTurn ts tc st).1.outputAudioContext = st.outputAudioContext := by
  rw [(flushTurn_state ts tc st).1]

lemma flushTurn_outputGainNode (ts : ℕ) (tc : Bool) (st : ClientState) :
    (flushTurn ts tc st).1.outputGainNode = st.outputGainNode := by
  rw [(flushTurn_state ts tc st).1]

/-- Explicit shape of the turn flush on completion: each accumulator with
non-whitespace content yields one final item (user first), and exactly the
flushed accumulators are reset. -/
lemma flushTurn_true_eq (ts : ℕ) (st : ClientState) :
    (flushTurn ts true st).2 =
      ((if jsTrim st.currentInputTranscription = "" then []
        else [MessageEffect.transcription
          ⟨toString ts ++ "-user", st.currentInputTranscription,
           Sender.user, true⟩])
      ++ (if jsTrim st.currentOutputTranscription = "" then []
          else [MessageEffect.transcription
            ⟨toString ts ++ "-model", st.currentOutputTranscription,
             Sender.model, true⟩])) ∧
    (flushTurn ts true st).1.currentInputTranscription =
      (if jsTrim st.currentInputTranscription = "" then
        st.currentInputTranscription else "") ∧
    (flushTurn ts true st).1.currentOutputTranscription =
      (if jsTrim st.currentOutputTranscription = "" then
        st.currentOutputTranscription else "") := by
  by_cases h1 : jsTrim st.currentInputTranscription = "" <;>
    by_cases h2 : jsTrim st.currentOutputTranscription = "" <;>
      simp [flushTurn, h1, h2]

lemma connectStep_inv {s : ConnectSystem} (b : Bool) (h : ConnectInv s) :
    ConnectInv (connectStep s b) := by
  obtain ⟨ha, hat, h0, h1⟩ := h
  cases b
  · cases ht : s.task0 with
    | entry => simp [connectStep, connectPhaseStep, ht, ha, hat, ConnectInv, h1]
    | awaitingPermissions => exact absurd ht h0
    | finished => simp [connectStep, connectPhaseStep, ht, ha, hat, ConnectInv, h1]
  · cases ht : s.task1 with
    | entry => simp [connectStep, connectPhaseStep, ht, ha, hat, ConnectInv, h0]
    | awaitingPermissions => exact absurd ht h1
    | finished => simp [connectStep, connectPhaseStep, ht, ha, hat, ConnectInv, h0]

lemma runConnectSchedule_inv :
    ∀ (sched : List Bool) (s : ConnectSystem), ConnectInv s →
      ConnectInv (runConnectSchedule sched s) := by
  intro sched
  induction sched with
  | nil => intro s h; exact h
  | cons b rest ih =>
    intro s h
    exact ih (connectStep s b) (connectStep_inv b h)

lemma clampSample_le (x : ℚ) : clampSample x ≤ 1 :=
  max_le (by norm_num) (min_le_left _ _)

lemma neg_one_le_clampSample (x : ℚ) : -1 ≤ clampSample x :=
  le_max_left _ _

lemma clampSample_eq_self {x : ℚ} (h : |x| ≤ 1) : clampSample x = x := by
  obtain ⟨h1, h2⟩ := abs_le.mp h
  unfold clampSample
  rw [min_eq_right h2, max_eq_right h1]

/-- An encoded sample always fits in a signed 16-bit integer. -/
lemma encodeSample_range (x : ℚ) :
    -32768 ≤ encodeSample x ∧ encodeSample x < 32768 := by
  have hcl := neg_one_le_clampSample x
  have hcu := clampSample_le x
  have h1 : |clampSample x * 32767 -
      (round (clampSample x * 32767) : ℚ)| ≤ 1 / 2 := abs_sub_round _
  obtain ⟨h2, h3⟩ := abs_le.mp h1
  simp only [encodeSample]
  constructor
  · have h4 : (-32768 : ℚ) ≤ ((round (clampSample x * 32767) : ℤ) : ℚ) := by
      nlinarith
    exact_mod_cast h4
  · have h4 : ((round (clampSample x * 32767) : ℤ) : ℚ) < 32768 := by
      nlinarith
    exact_mod_cast h4

/-- Little-endian two's-complement byte packing of a 16-bit sample is
inverted exactly by the decoder's byte reassembly. -/
lemma int16FromLEBytes_sampleToLEBytes {n : ℤ} (hl : -32768 ≤ n)
    (hu : n < 32768) :
    int16FromLEBytes (sampleToLEBytes n).1 (sampleToLEBytes n).2 = n := by
  simp only [sampleToLEBytes, int16FromLEBytes]
  omega

/-- Quantization error of one encode/decode round trip: at most
`3/65536 = 1.5/32768`. -/
lemma decode_encode_sample_close {x : ℚ} (h : |x| ≤ 1) :
    |(encodeSample x : ℚ) / 32768 - x| ≤ 3 / 65536 := by
  obtain ⟨hx1, hx2⟩ := abs_le.mp h
  rw [encodeSample, clampSample_eq_self h]
  have h1 : |x * 32767 - (round (x * 32767) : ℚ)| ≤ 1 / 2 := abs_sub_round _
  obtain ⟨h2, h3⟩ := abs_le.mp h1
  rw [abs_le]
  constructor <;> linarith

/-- One sample's journey through the byte-level PCM pipeline. -/
lemma decodePcmBytes_createPcmBytes_cons (x : ℚ) (xs : List ℚ) :
    decodePcmBytes (createPcmBytes (x :: xs)) =
      (encodeSample x : ℚ) / 32768 :: decodePcmBytes (createPcmBytes xs) := by
  have hr := int16FromLEBytes_sampleToLEBytes (encodeSample_range x).1
    (encodeSample_range x).2
  simp only [createPcmBytes, List.flatMap_cons, List.cons_append,
    List.nil_append, decodePcmBytes, hr]
  rfl

lemma transcriptionEffects_append (l1 l2 : List MessageEffect) :
    transcriptionEffects (l1 ++ l2) =
      transcriptionEffects l1 ++ transcriptionEffects l2 := by
  simp [transcriptionEffects]

/-- Closed form of the audio branch when a decodable non-empty payload
arrives with the output graph present. -/
lemma audioStep_audio_eq (decode : String → Option ℚ) (m : LiveServerMessage)
    (st : ClientState) (s : String) (now d : ℚ)
    (hx : extractAudio m = some s) (hs : s ≠ "")
    (hc : st.outputAudioContext = some now) (hg : st.outputGainNode = true)
    (hd : decode s = some d) :
    audioStep decode m st =
      ({ st with nextStartTime := max st.nextStartTime now + d },
       [MessageEffect.audioData d,
        MessageEffect.scheduledStart (max st.nextStartTime now)]) := by
  unfold audioStep
  simp only [hx, hc, hg]
  rw [if_neg hs, hd]

/-- The audio branch does nothing when no payload is extracted. -/
lemma audioStep_none (decode : String → Option ℚ) (m : LiveServerMessage)
    (st : ClientState) (hx : extractAudio m = none) :
    audioStep decode m st = (st, []) := by
  unfold audioStep
  rw [hx]

/-- When the first part of the model turn carries no inline payload, the
optional-chained extraction yields nothing, whatever the other parts
hold. -/
lemma extractAudio_head_none (sc : ServerContent) (mt : ModelTurn)
    (p0 : ContentPart) (rest : List ContentPart)
    (hmt : sc.modelTurn = some mt) (hp : mt.parts = some (p0 :: rest))
    (hd : p0.inlineData.bind InlineData.data = none) :
    extractAudio ⟨some sc⟩ = none := by
  simp [extractAudio, hmt, hp, hd]

/-- Closed form of `handleMessage` on the audio path: the cursor and the
audio effects. -/
lemma handleMessage_audio_eq (decode : String → Option ℚ) (ts : ℕ)
    (m : LiveServerMessage) (st : ClientState) (s : String) (now d : ℚ)
    (hx : extractAudio m = some s) (hs : s ≠ "")
    (hc : st.outputAudioContext = some now) (hg : st.outputGainNode = true)
    (hd : decode s = some d) :
    (handleMessage decode ts m st).1.nextStartTime =
      max st.nextStartTime now + d ∧
    scheduledStarts (handleMessage decode ts m st).2 =
      [max st.nextStartTime now] ∧
    audioDataEffects (handleMessage decode ts m st).2 = [d] ∧
    (handleMessage decode ts m st).1.outputAudioContext = some now ∧
    (handleMessage decode ts m st).1.outputGainNode = true := by
  have ha := audioStep_audio_eq decode m st s now d hx hs hc hg hd
  unfold handleMessage
  rw [ha]
  simp only [scheduledStarts, audioDataEffects, List.filterMap_append]
  refine ⟨?_, ?_, ?_, ?_, ?_⟩
  · rw [flushTurn_nextStartTime, appendTranscriptions_nextStartTime]
  · rw [show (flushTurn ts (turnCompleteOf m)
      (appendTranscriptions m
        { st with nextStartTime := max st.nextStartTime now + d })).2.filterMap
          (fun e => match e with
            | MessageEffect.scheduledStart t => some t
            | _ => none) =
      scheduledStarts (flushTurn ts (turnCompleteOf m)
        (appendTranscriptions m
          { st with nextStartTime := max st.nextStartTime now + d })).2 from rfl,
      (flushTurn_state _ _ _).2.1]
    rfl
  · rw [show (flushTurn ts (turnCompleteOf m)
      (appendTranscriptions m
        { st with nextStartTime := max st.nextStartTime now + d })).2.filterMap
          (fun e => match e with
            | MessageEffect.audioData dd => some dd
            | _ => none) =
      audioDataEffects (flushTurn ts (turnCompleteOf m)
        (appendTranscriptions m
          { st with nextStartTime := max st.nextStartTime now + d })).2 from rfl,
      (flushTurn_state _ _ _).2.2]
    rfl
  · rw [flushTurn_outputAudioContext, appendTranscriptions_outputAudioContext]
    exact hc
  · rw [flushTurn_outputGainNode, appendTranscriptions_outputGainNode]
    exact hg

/-! Claim theorems -/

/-- C3: if connection establishment has not produced an open event within
the 15-second deadline (`connectionTimeoutMs = 15000`), the raced promise
rejects and its catch handler runs: `onError` receives the timer's
timeout-indicating message (it contains the words "timed out"), full
cleanup runs without throwing, both audio-engine references end up null,
and both engines are closed whenever they existed. -/
theorem establishment_timeout_behaviour (st : ClientState) (f : CleanupFailures) :
    ∃ st' effs,
      handleEstablishmentTimeout st f = Except.ok (st', effs, timeoutErrorMessage) ∧
      (∃ pre post, timeoutErrorMessage = pre ++ "timed out" ++ post) ∧
      connectionTimeoutMs = 15000 ∧
      st'.inputAudioContext = none ∧
      st'.outputAudioContext = none ∧
      (st.inputAudioContext.isSome = true →
        CleanupEffect.closeInputContext ∈ effs) ∧
      (st.outputAudioContext.isSome = true →
        CleanupEffect.closeOutputContext ∈ effs) := by
  refine ⟨cleanedState st, cleanupEffects st, ?_, ?_, rfl, rfl, rfl, ?_, ?_⟩
  · unfold handleEstablishmentTimeout
    rw [cleanup_eq]
    rfl
  · exact ⟨"Connection ", ". Check your network or API Key.", rfl⟩
  · intro h
    simp [cleanupEffects, h]
  · intro h
    simp [cleanupEffects, h]

/-- C3 witness: a client with both audio engines present times out; both
engines are closed even when every teardown call throws. -/
theorem establishment_timeout_behaviour_witness :
    ∃ st' effs,
      handleEstablishmentTimeout openClient allFailures =
        Except.ok (st', effs, timeoutErrorMessage) ∧
      st'.inputAudioContext = none ∧
      st'.outputAudioContext = none ∧
      CleanupEffect.closeInputContext ∈ effs ∧
      CleanupEffect.closeOutputContext ∈ effs := by
  obtain ⟨st', effs, h1, _, _, h4, h5, h6, h7⟩ :=
    establishment_timeout_behaviour openClient allFailures
  exact ⟨st', effs, h1, h4, h5, h6 rfl, h7 rfl⟩

/-- C4: `disconnect()` never throws from any state and under any pattern
of failures of the wrapped browser calls: it always returns normally, the
result does not depend on which calls threw, afterwards every internal
reference is nulled and the activity flag is cleared, closure of the
remote handle is requested whenever one was held, and a second
`disconnect()` returns the same (already clean) state. -/
theorem disconnect_safe_total (st : ClientState) (f g : CleanupFailures) :
    ∃ st' effs,
      disconnect st f = Except.ok (st', effs) ∧
      st'.isActive = false ∧
      st'.sessionPromise = false ∧
      st'.inputAudioContext = none ∧
      st'.outputAudioContext = none ∧
      st'.outputGainNode = false ∧
      st'.inputSource = false ∧
      st'.processor = false ∧
      st'.audioStreamDestination = false ∧
      st'.connectionTimeoutId = none ∧
      st'.videoInterval = none ∧
      (st.sessionPromise = true → CleanupEffect.requestSessionClose ∈ effs) ∧
      disconnect st g = Except.ok (st', effs) ∧
      (∃ effs2, disconnect st' g = Except.ok (st', effs2)) := by
  refine ⟨cleanedState { st with isActive := false },
    cleanupEffects { st with isActive := false },
    ?_, rfl, rfl, rfl, rfl, rfl, rfl, rfl, rfl, rfl, rfl, ?_, ?_, ?_⟩
  · unfold disconnect
    rw [cleanup_eq]
  · intro h
    simp [cleanupEffects, h]
  · unfold disconnect
    rw [cleanup_eq]
  · exact ⟨cleanupEffects (cleanedState { st with isActive := false }), by
      unfold disconnect
      rw [cleanup_eq]
      rfl⟩

/-- C4 witness: disconnecting an open client while every teardown call
throws still returns normally with everything nulled, and requests closure
of the session handle. -/
theorem disconnect_safe_total_witness :
    ∃ st' effs,
      disconnect openClient allFailures = Except.ok (st', effs) ∧
      st'.isActive = false ∧
      st'.sessionPromise = false ∧
      st'.inputAudioContext = none ∧
      st'.outputAudioContext = none ∧
      CleanupEffect.requestSessionClose ∈ effs ∧
      (∃ effs2, disconnect st' noFailures = Except.ok (st', effs2)) := by
  obtain ⟨st', effs, h1, h2, h3, h4, h5, _, _, _, _, _, _, hc, _, hi⟩ :=
    disconnect_safe_total openClient allFailures noFailures
  exact ⟨st', effs, h1, h2, h3, h4, h5, hc rfl, hi⟩

/-- C5 counterexample: interleaving two `connect()` invocations so that
both pass the `if (this.isActive) return` entry guard before either has
resumed from `getUserMedia` (schedule: call 0 entry, call 1 entry, call 0
resume, call 1 resume) makes both reach `ai.live.connect`, i.e. two
concurrent establishment attempts from an inactive client — refuting the
claim that no interleaving of `connect` calls can produce two concurrent
establishment attempts. -/
theorem connect_interleaving_double_attempt :
    (runConnectSchedule [false, true, false, true]
      { isActive := false, establishAttempts := 0,
        task0 := ConnectPhase.entry, task1 := ConnectPhase.entry
        }).establishAttempts = 2 := by
  rfl

/-- C5 (amended): `connect()` invoked while the activity flag is already
set is an idempotent no-op — under every interleaving schedule starting
with the flag set and both invocations at the entry guard, no
establishment attempt is ever made and the flag stays set.  (The original
claim's stronger clause fails: two calls interleaved before either sets
the flag can both begin establishment, see the counterexample.) -/
theorem connect_noop_when_active (sched : List Bool) :
    (runConnectSchedule sched
      { isActive := true, establishAttempts := 0,
        task0 := ConnectPhase.entry, task1 := ConnectPhase.entry
        }).establishAttempts = 0 ∧
    (runConnectSchedule sched
      { isActive := true, establishAttempts := 0,
        task0 := ConnectPhase.entry, task1 := ConnectPhase.entry
        }).isActive = true := by
  have h := runConnectSchedule_inv sched
    { isActive := true, establishAttempts := 0,
      task0 := ConnectPhase.entry, task1 := ConnectPhase.entry }
    ⟨rfl, rfl, by simp, by simp⟩
  exact ⟨h.2.1, h.1⟩

/-- C6: the `onaudioprocess` handler never throws; a microphone frame is
captured, encoded and its transmission issued only when the activity flag
(as read at handler entry) is set and a session promise exists — with the
flag clear nothing happens at all; a transmission failure is caught, never
rethrown, produces no transmission, and is logged only when the activity
flag is still set at failure time, being silently ignored after
deactivation. -/
theorem onAudioProcess_guarded (ctx : MicFrameContext) (frame : List ℚ) :
    ∃ effs,
      onAudioProcess ctx frame = Except.ok effs ∧
      (∀ b, MicEffect.transmitted b ∈ effs →
        ctx.isActiveAtCapture = true ∧ ctx.sessionPromiseExists = true) ∧
      (ctx.isActiveAtCapture = false → effs = []) ∧
      (ctx.sendFails = true →
        (∀ b, MicEffect.transmitted b ∉ effs) ∧
        (MicEffect.logSendError ∈ effs → ctx.isActiveAtFailure = true)) ∧
      (ctx.sendFails = false → ctx.isActiveAtCapture = true →
        ctx.sessionPromiseExists = true →
        effs = [MicEffect.transmitted (createPcmBytes frame)]) := by
  obtain ⟨a, p, sf, af⟩ := ctx
  cases a <;> cases p <;> cases sf <;> cases af <;>
    exact ⟨_, rfl, by simp, by simp, by simp, by simp⟩

/-- C6 witness: an active session with a working transport transmits the
encoded frame; the same frame with a failing transport after deactivation
produces no effect at all yet still returns normally. -/
theorem onAudioProcess_guarded_witness :
    (∃ effs,
      onAudioProcess ⟨true, true, false, true⟩ [1/2] = Except.ok effs ∧
      effs = [MicEffect.transmitted (createPcmBytes [1/2])]) ∧
    (∃ effs,
      onAudioProcess ⟨true, true, true, false⟩ [1/2] = Except.ok effs ∧
      (MicEffect.logSendError ∈ effs → False) ∧
      (∀ b, MicEffect.transmitted b ∉ effs)) := by
  constructor
  · obtain ⟨effs, h1, _, _, _, h5⟩ :=
      onAudioProcess_guarded ⟨true, true, false, true⟩ [1/2]
    exact ⟨effs, h1, h5 rfl rfl rfl⟩
  · obtain ⟨effs, h1, _, _, h4, _⟩ :=
      onAudioProcess_guarded ⟨true, true, true, false⟩ [1/2]
    refine ⟨effs, h1, ?_, (h4 rfl).1⟩
    intro hmem
    have := (h4 rfl).2 hmem
    simp at this

/-- C7: for every level, `setVolume` issues one smooth
`setTargetAtTime(level, currentTime, 0.05)` ramp on the output gain node
when both the gain node and the output context exist; when either is
absent it does nothing (and cannot throw, being effect-free); in
particular after `disconnect()` both references are null, so `setVolume`
is a no-op. -/
theorem setVolume_ramp_or_noop (st : ClientState) (v : ℚ) :
    (∀ now, st.outputAudioContext = some now → st.outputGainNode = true →
      setVolume st v = some ⟨v, now, 1 / 20⟩) ∧
    (st.outputAudioContext = none ∨ st.outputGainNode = false →
      setVolume st v = none) ∧
    (∀ f st' effs, disconnect st f = Except.ok (st', effs) →
      setVolume st' v = none) := by
  refine ⟨?_, ?_, ?_⟩
  · intro now h1 h2
    simp [setVolume, h1, h2]
  · intro h
    rcases h with h | h
    · cases hg : st.outputGainNode <;> simp [setVolume, h, hg]
    · cases hc : st.outputAudioContext <;> simp [setVolume, h, hc]
  · intro f st' effs h
    unfold disconnect at h
    rw [cleanup_eq] at h
    have h2 : st' = cleanedState { st with isActive := false } :=
      (Prod.mk.injEq _ _ _ _).mp (Except.ok.inj h) |>.1.symm
    rw [h2]
    rfl

/-- C7 witness: with an open output graph, `setVolume 1/2` ramps toward
1/2 from the context's current time with time constant 0.05; after
`disconnect()` it is a no-op. -/
theorem setVolume_ramp_or_noop_witness :
    setVolume openClient (1/2) = some ⟨1/2, 2, 1/20⟩ ∧
    (∀ st' effs, disconnect openClient noFailures = Except.ok (st', effs) →
      setVolume st' (1/2) = none) := by
  obtain ⟨h1, _, h3⟩ := setVolume_ramp_or_noop openClient (1/2)
  exact ⟨h1 2 rfl rfl, h3 noFailures⟩

/-- C9: `sendTextMessage` invoked when the session is not active or when
no connection promise exists is a completely silent no-op: it returns
normally with no send, no warning and no failure log, for every text and
every transport behaviour. -/
theorem sendTextMessage_inactive_silent (st : ClientState)
    (supportsSend sendFails : Bool) (text : String)
    (h : ¬(st.isActive = true ∧ st.sessionPromise = true)) :
    sendTextMessage st supportsSend sendFails text = Except.ok [] := by
  simp only [sendTextMessage]
  rw [if_neg h]

/-- C9 witness: sending on a freshly constructed (inactive) client does
nothing, silently. -/
theorem sendTextMessage_inactive_silent_witness :
    sendTextMessage idleClient true true "hello" = Except.ok [] :=
  sendTextMessage_inactive_silent idleClient true true "hello" (by
    intro h
    exact Bool.false_ne_true h.1)

/-- C1: for every inbound message carrying a (decodable, non-empty) audio
payload handled with the output graph present, the scheduled start time of
the decoded chunk equals `max(previous cursor, engine current time)`
(hence is never less than the engine's current time at scheduling), the
cursor is advanced to exactly that start plus the chunk's duration (so a
nonnegative duration means the cursor never decreases), and a following
audio chunk handled while the engine is not idle-starved (its current time
at most the cursor) is scheduled to start exactly where this chunk ends. -/
theorem handleMessage_audio_scheduling
    (decode : String → Option ℚ) (ts ts2 : ℕ) (m m2 : LiveServerMessage)
    (st : ClientState) (s s2 : String) (now now2 d d2 : ℚ)
    (hx : extractAudio m = some s) (hs : s ≠ "")
    (hc : st.outputAudioContext = some now) (hg : st.outputGainNode = true)
    (hd : decode s = some d) (hd0 : 0 ≤ d) :
    scheduledStarts (handleMessage decode ts m st).2 =
      [max st.nextStartTime now] ∧
    audioDataEffects (handleMessage decode ts m st).2 = [d] ∧
    (handleMessage decode ts m st).1.nextStartTime =
      max st.nextStartTime now + d ∧
    now ≤ max st.nextStartTime now ∧
    st.nextStartTime ≤ (handleMessage decode ts m st).1.nextStartTime ∧
    (extractAudio m2 = some s2 → s2 ≠ "" → decode s2 = some d2 →
      now2 ≤ (handleMessage decode ts m st).1.nextStartTime →
      scheduledStarts (handleMessage decode ts2 m2
        { (handleMessage decode ts m st).1 with
            outputAudioContext := some now2 }).2 =
        [max st.nextStartTime now + d]) := by
  obtain ⟨h1, h2, h3, h4, h5⟩ :=
    handleMessage_audio_eq decode ts m st s now d hx hs hc hg hd
  refine ⟨h2, h3, h1, le_max_right _ _, ?_, ?_⟩
  · rw [h1]
    have := le_max_left st.nextStartTime now
    linarith
  · intro hx2 hs2 hd2 hnow2
    rw [h1] at hnow2
    obtain ⟨_, g2, _, _, _⟩ := handleMessage_audio_eq decode ts2 m2
      { (handleMessage decode ts m st).1 with outputAudioContext := some now2 }
      s2 now2 d2 hx2 hs2 rfl h5 hd2
    rw [g2]
    have hX : ({ (handleMessage decode ts m st).1 with
        outputAudioContext := some now2 } : ClientState).nextStartTime =
        max st.nextStartTime now + d := h1
    rw [hX, max_eq_left hnow2]

/-- C1 witness: with the cursor at 1 and the engine clock at 2, a 1-second
chunk is scheduled at 2 and the cursor moves to 3; a second chunk arriving
with the clock at 5/2 (not idle-starved) is scheduled exactly at 3. -/
theorem handleMessage_audio_scheduling_witness :
    scheduledStarts
      (handleMessage (fun _ => some 1) 0 (audioMsg "x") openClient).2 = [2] ∧
    (handleMessage (fun _ => some 1) 0 (audioMsg "x")
      openClient).1.nextStartTime = 3 ∧
    scheduledStarts (handleMessage (fun _ => some 1) 0 (audioMsg "x")
      { (handleMessage (fun _ => some 1) 0 (audioMsg "x") openClient).1 with
          outputAudioContext := some (5/2) }).2 = [3] := by
  obtain ⟨h1, _, h3, _, _, h6⟩ :=
    handleMessage_audio_scheduling (fun _ => some 1) 0 0
      (audioMsg "x") (audioMsg "x") openClient "x" "x" 2 (5/2) 1 1
      rfl (by simp) rfl rfl rfl (by norm_num)
  have hmax : max openClient.nextStartTime 2 = 2 := by
    rw [show openClient.nextStartTime = 1 from rfl]
    norm_num
  refine ⟨?_, ?_, ?_⟩
  · rw [h1, hmax]
  · rw [h3, hmax]
    norm_num
  · have := h6 rfl (by simp) rfl (by
      rw [h3, hmax]
      norm_num)
    rw [this, hmax]
    norm_num

/-- C10: inline audio is read only from the first part of the model turn:
for every message whose first part carries no inline payload — whatever
audio the remaining parts hold — no playback is scheduled, `onAudioData`
does not fire, and the playback cursor does not move. -/
theorem handleMessage_ignores_nonfirst_parts
    (decode : String → Option ℚ) (ts : ℕ) (st : ClientState)
    (sc : ServerContent) (mt : ModelTurn) (p0 : ContentPart)
    (rest : List ContentPart)
    (hmt : sc.modelTurn = some mt) (hp : mt.parts = some (p0 :: rest))
    (hd : p0.inlineData.bind InlineData.data = none) :
    scheduledStarts (handleMessage decode ts ⟨some sc⟩ st).2 = [] ∧
    audioDataEffects (handleMessage decode ts ⟨some sc⟩ st).2 = [] ∧
    (handleMessage decode ts ⟨some sc⟩ st).1.nextStartTime =
      st.nextStartTime := by
  have hx := extractAudio_head_none sc mt p0 rest hmt hp hd
  have ha := audioStep_none decode ⟨some sc⟩ st hx
  unfold handleMessage
  rw [ha]
  refine ⟨?_, ?_, ?_⟩
  · show scheduledStarts (flushTurn ts (turnCompleteOf ⟨some sc⟩)
      (appendTranscriptions ⟨some sc⟩ st)).2 = []
    exact (flushTurn_state _ _ _).2.1
  · show audioDataEffects (flushTurn ts (turnCompleteOf ⟨some sc⟩)
      (appendTranscriptions ⟨some sc⟩ st)).2 = []
    exact (flushTurn_state _ _ _).2.2
  · show (flushTurn ts (turnCompleteOf ⟨some sc⟩)
      (appendTranscriptions ⟨some sc⟩ st)).1.nextStartTime = st.nextStartTime
    rw [flushTurn_nextStartTime, appendTranscriptions_nextStartTime]

/-- C10 witness: a message with audio only in its second part schedules
nothing, fires no audio-data callback, and leaves the cursor at 1. -/
theorem handleMessage_ignores_nonfirst_parts_witness :
    scheduledStarts (handleMessage (fun _ => some 1) 0
      (secondPartAudioMsg "zzz") openClient).2 = [] ∧
    audioDataEffects (handleMessage (fun _ => some 1) 0
      (secondPartAudioMsg "zzz") openClient).2 = [] ∧
    (handleMessage (fun _ => some 1) 0
      (secondPartAudioMsg "zzz") openClient).1.nextStartTime =
      openClient.nextStartTime :=
  handleMessage_ignores_nonfirst_parts (fun _ => some 1) 0 openClient
    ⟨some ⟨some [⟨none⟩, ⟨some ⟨some "zzz"⟩⟩]⟩, none, none, false⟩
    ⟨some [⟨none⟩, ⟨some ⟨some "zzz"⟩⟩]⟩ ⟨none⟩ [⟨some ⟨some "zzz"⟩⟩]
    rfl rfl rfl

/-- C2: on every turn-complete message, writing `(a, b)` for the two
accumulators at flush time (after this message's fragment was appended):
the emitted transcription items are exactly one final user item carrying
`a` when `a` has non-whitespace content (none otherwise) followed by one
final model item carrying `b` when `b` has non-whitespace content (none
otherwise) — so at most one item per direction, user before model, never
an empty or whitespace-only item — and exactly the flushed accumulators
are reset to empty. -/
theorem handleMessage_turnComplete_flush
    (decode : String → Option ℚ) (ts : ℕ) (m : LiveServerMessage)
    (st : ClientState) (h : turnCompleteOf m = true) :
    transcriptionEffects (handleMessage decode ts m st).2 =
      (if jsTrim (accumsAtFlush decode m st).1 = "" then []
       else [⟨toString ts ++ "-user", (accumsAtFlush decode m st).1,
             Sender.user, true⟩])
      ++ (if jsTrim (accumsAtFlush decode m st).2 = "" then []
          else [⟨toString ts ++ "-model", (accumsAtFlush decode m st).2,
                Sender.model, true⟩]) ∧
    (handleMessage decode ts m st).1.currentInputTranscription =
      (if jsTrim (accumsAtFlush decode m st).1 = "" then
        (accumsAtFlush decode m st).1 else "") ∧
    (handleMessage decode ts m st).1.currentOutputTranscription =
      (if jsTrim (accumsAtFlush decode m st).2 = "" then
        (accumsAtFlush decode m st).2 else "") := by
  obtain ⟨e1, e2, e3⟩ := flushTurn_true_eq ts
    (appendTranscriptions m (audioStep decode m st).1)
  have hacc1 : (accumsAtFlush decode m st).1 =
      (appendTranscriptions m (audioStep decode m st).1).currentInputTranscription := rfl
  have hacc2 : (accumsAtFlush decode m st).2 =
      (appendTranscriptions m (audioStep decode m st).1).currentOutputTranscription := rfl
  refine ⟨?_, ?_, ?_⟩
  · show transcriptionEffects ((audioStep decode m st).2 ++
      (flushTurn ts (turnCompleteOf m)
        (appendTranscriptions m (audioStep decode m st).1)).2) = _
    rw [transcriptionEffects_append, audioStep_transcription_nil,
      List.nil_append, h, e1, hacc1, hacc2]
    by_cases h1 : jsTrim (appendTranscriptions m
        (audioStep decode m st).1).currentInputTranscription = "" <;>
      by_cases h2 : jsTrim (appendTranscriptions m
          (audioStep decode m st).1).currentOutputTranscription = "" <;>
        simp [h1, h2, transcriptionEffects]
  · show (flushTurn ts (turnCompleteOf m)
      (appendTranscriptions m (audioStep decode m st).1)).1.currentInputTranscription = _
    rw [h, e2, hacc1]
  · show (flushTurn ts (turnCompleteOf m)
      (appendTranscriptions m (audioStep decode m st).1)).1.currentOutputTranscription = _
    rw [h, e3, hacc2]

/-- C2 witness: a turn-complete message arriving with accumulators
`"hi"` (user) and `" "` (agent, whitespace-only) emits exactly one final
user item and resets only the user accumulator. -/
theorem handleMessage_turnComplete_flush_witness :
    transcriptionEffects (handleMessage (fun _ => none) 0 turnCompleteMsg
      accumClient).2 = [⟨"0-user", "hi", Sender.user, true⟩] ∧
    (handleMessage (fun _ => none) 0 turnCompleteMsg
      accumClient).1.currentInputTranscription = "" ∧
    (handleMessage (fun _ => none) 0 turnCompleteMsg
      accumClient).1.currentOutputTranscription = " " := by
  obtain ⟨e1, e2, e3⟩ := handleMessage_turnComplete_flush (fun _ => none) 0
    turnCompleteMsg accumClient rfl
  have ha : (accumsAtFlush (fun _ => none) turnCompleteMsg accumClient) =
      ("hi", " ") := rfl
  have ht1 : jsTrim "hi" = "hi" := by decide
  have ht2 : jsTrim " " = "" := by decide
  rw [ha] at e1 e2 e3
  refine ⟨?_, ?_, ?_⟩
  · rw [e1]
    simp only [ht1, ht2]
    rfl
  · rw [e2]
    simp [ht1]
  · rw [e3]
    simp [ht2]

/-- C8 (amended): for every array of float samples each within `[-1, 1]`,
encoding to 16-bit little-endian PCM (clamp, scale by 32767, round) and
decoding back (divide each 16-bit sample by 32768) recovers every sample
within `3/65536 = 1.5/32768` absolute error — the asymmetric scale
(32767 on encode, 32768 on decode) makes the spec's `1/32768` bound
unattainable near full scale, see the counterexample. -/
theorem pcm_roundtrip_error_bound (samples : List ℚ)
    (h : ∀ x ∈ samples, |x| ≤ 1) :
    List.Forall₂ (fun dec orig => |dec - orig| ≤ 3 / 65536)
      (decodePcmBytes (createPcmBytes samples)) samples := by
  induction samples with
  | nil => exact List.Forall₂.nil
  | cons x xs ih =>
    rw [decodePcmBytes_createPcmBytes_cons]
    exact List.Forall₂.cons
      (decode_encode_sample_close (h x (List.mem_cons_self x xs)))
      (ih fun y hy => h y (List.mem_cons_of_mem x hy))

/-- C8 witness: the block `[1/2, -1]` round-trips with every sample within
`3/65536` of its original. -/
theorem pcm_roundtrip_error_bound_witness :
    List.Forall₂ (fun dec orig => |dec - orig| ≤ 3 / 65536)
      (decodePcmBytes (createPcmBytes [1/2, -1])) [1/2, -1] :=
  pcm_roundtrip_error_bound [1/2, -1] (by
    intro x hx
    simp only [List.mem_cons, List.not_mem_nil, or_false] at hx
    rcases hx with rfl | rfl
    · rw [abs_le]
      constructor <;> norm_num
    · rw [abs_le]
      constructor <;> norm_num)

/-- C8 counterexample: the in-range sample `163832/163835 ≈ 0.99998`
encodes to the 16-bit value 32766 and decodes to `16383/16384`, an
absolute error of about `1.4/32768` — refuting the claimed `1/32768`
round-trip bound. -/
theorem pcm_roundtrip_one_error_exceeds :
    |(163832 / 163835 : ℚ)| ≤ 1 ∧
    ¬ List.Forall₂ (fun dec orig => |dec - orig| ≤ 1 / 32768)
      (decodePcmBytes (createPcmBytes [(163832 / 163835 : ℚ)]))
      [(163832 / 163835 : ℚ)] := by
  have he : encodeSample (163832 / 163835 : ℚ) = 32766 := by
    rw [encodeSample, clampSample_eq_self (by
      rw [abs_le]
      constructor <;> norm_num), round_eq]
    have h : ((163832 : ℚ) / 163835) * 32767 + 1 / 2 =
        ((10736730123 : ℤ) : ℚ) / ((327670 : ℕ) : ℚ) := by
      push_cast
      ring
    rw [h, Rat.floor_intCast_div_natCast]
    decide
  have hdec : decodePcmBytes (createPcmBytes [(163832 / 163835 : ℚ)]) =
      [16383 / 16384] := by
    rw [decodePcmBytes_createPcmBytes_cons, he]
    norm_num
    rfl
  refine ⟨by
    rw [abs_le]
    constructor <;> norm_num, ?_⟩
  intro hforall
  rw [hdec] at hforall
  rcases hforall with _ | ⟨hpair, _⟩
  rw [abs_le] at hpair
  have h1 := hpair.1
  norm_num at h1

end GiantsMeeting
